import Mathlib

/-!
Shallow embedding of the client-side logic of the aimproject recruiting
assistant (React/TypeScript).  JavaScript numbers are modelled as exact
rationals (ℚ); JavaScript exceptions as `Except`/`Option`; the mutation of
React state and of `localStorage` as explicit state passing.  Definitions
are translated from the TypeScript source: `calculateFinalScore` and the
`startAnalysis` loop from the main App component, `generateCSV` from the
file-utilities module, `analyzeCandidate` from the Gemini service module.
-/

namespace AimProject

/-- The five named weight values (interface `ScoringWeights` in types.ts). -/
structure ScoringWeights where
  skillsMatch : ℚ
  experienceRelevance : ℚ
  qualifications : ℚ
  seniority : ℚ
  clarity : ℚ
deriving DecidableEq

/-- The five 0–100 ratings block of `AIResponseRaw.ratings` in types.ts. -/
structure Ratings where
  skillsMatch : ℚ
  experienceRelevance : ℚ
  qualifications : ℚ
  seniority : ℚ
  clarity : ℚ
deriving DecidableEq

/-- The fit label union type `'High' | 'Medium' | 'Low'` of types.ts. -/
inductive FitLabel where
  | High
  | Medium
  | Low
deriving DecidableEq

/-- The raw record returned by the AI collaborator (`AIResponseRaw` in types.ts). -/
structure AIResponseRaw where
  candidateName : String
  skillsFound : List String
  skillsMissing : List String
  qualifications : List String
  achievements : List String
  experienceSummary : String
  strengths : List String
  weaknesses : List String
  ratings : Ratings
  reasoning : String
deriving DecidableEq

/-- `CandidateAnalysis extends AIResponseRaw` with id, finalScore, fitLabel (types.ts). -/
structure CandidateAnalysis extends AIResponseRaw where
  id : String
  finalScore : ℚ
  fitLabel : FitLabel
deriving DecidableEq

/-- `Object.values(w).reduce((a, b) => a + b, 0)` — the sum of the five weights. -/
def ScoringWeights.total (w : ScoringWeights) : ℚ :=
  w.skillsMatch + w.experienceRelevance + w.qualifications + w.seniority + w.clarity

/-- `calculateFinalScore` from the App component: if the weight sum is 0 return the
candidate unchanged; otherwise set `finalScore` to the weighted sum of the five
ratings divided by the weight sum, and set `fitLabel` by thresholds ≥80 High,
≥50 Medium, otherwise Low.  All other fields are copied through the record
update `{ ...candidate, finalScore, fitLabel }`. -/
def calculateFinalScore (candidate : CandidateAnalysis) (w : ScoringWeights) :
    CandidateAnalysis :=
  let totalWeight := w.total
  if totalWeight = 0 then candidate
  else
    let rawScore :=
      candidate.ratings.skillsMatch * w.skillsMatch +
      candidate.ratings.experienceRelevance * w.experienceRelevance +
      candidate.ratings.qualifications * w.qualifications +
      candidate.ratings.seniority * w.seniority +
      candidate.ratings.clarity * w.clarity
    let finalScore := rawScore / totalWeight
    let fitLabel : FitLabel :=
      if finalScore ≥ 80 then .High
      else if finalScore ≥ 50 then .Medium
      else .Low
    { candidate with finalScore := finalScore, fitLabel := fitLabel }

/-- The weighted sum `Σ rating_i × weight_i` of a candidate's ratings. -/
def weightedSum (r : Ratings) (w : ScoringWeights) : ℚ :=
  r.skillsMatch * w.skillsMatch +
  r.experienceRelevance * w.experienceRelevance +
  r.qualifications * w.qualifications +
  r.seniority * w.seniority +
  r.clarity * w.clarity

/-- All five weights are non-negative (the spec's data-model invariant on
`ScoringWeights`). -/
def WeightsNonneg (w : ScoringWeights) : Prop :=
  0 ≤ w.skillsMatch ∧ 0 ≤ w.experienceRelevance ∧ 0 ≤ w.qualifications ∧
  0 ≤ w.seniority ∧ 0 ≤ w.clarity

/-- All five ratings lie in [0, 100]. -/
def RatingsInRange (r : Ratings) : Prop :=
  (0 ≤ r.skillsMatch ∧ r.skillsMatch ≤ 100) ∧
  (0 ≤ r.experienceRelevance ∧ r.experienceRelevance ≤ 100) ∧
  (0 ≤ r.qualifications ∧ r.qualifications ≤ 100) ∧
  (0 ≤ r.seniority ∧ r.seniority ≤ 100) ∧
  (0 ≤ r.clarity ∧ r.clarity ≤ 100)

instance (w : ScoringWeights) : Decidable (WeightsNonneg w) := by
  unfold WeightsNonneg; infer_instance

instance (r : Ratings) : Decidable (RatingsInRange r) := by
  unfold RatingsInRange; infer_instance

/-- The threshold classification on a score: ≥80 High, ≥50 Medium, otherwise Low
(lines 96–98 of the App component). -/
def labelOfScore (s : ℚ) : FitLabel :=
  if s ≥ 80 then .High else if s ≥ 50 then .Medium else .Low

/-- One of the five rating axes. -/
inductive RatingAxis where
  | skillsMatch
  | experienceRelevance
  | qualifications
  | seniority
  | clarity
deriving DecidableEq

/-- Replace the value of one rating axis, keeping the other four. -/
def Ratings.setAxis (r : Ratings) : RatingAxis → ℚ → Ratings
  | .skillsMatch, v => { r with skillsMatch := v }
  | .experienceRelevance, v => { r with experienceRelevance := v }
  | .qualifications, v => { r with qualifications := v }
  | .seniority, v => { r with seniority := v }
  | .clarity, v => { r with clarity := v }

/-- A candidate with one rating axis replaced, everything else fixed. -/
def CandidateAnalysis.withRating (c : CandidateAnalysis) (axis : RatingAxis)
    (v : ℚ) : CandidateAnalysis :=
  { c with toAIResponseRaw := { c.toAIResponseRaw with ratings := c.ratings.setAxis axis v } }

/-! ## The Gemini service (`analyzeCandidate` in services/gemini.ts)

The body of `analyzeCandidate` can fail in three ways before producing a
parsed record: the API key is absent (`throw "API Key not found"`), the
response carries no text (`throw "No response from AI"`), or `JSON.parse`
throws.  The outcome of the external call is abstracted into an oracle
value; the `try`/`catch` around the body is explicit `Except` handling. -/

/-- Abstraction of what the environment/collaborator does on one call. -/
inductive GeminiOutcome where
  | missingApiKey
  | noResponseText
  | parseFailure
  | parsed (data : AIResponseRaw)
deriving DecidableEq

/-- The `try` body of `analyzeCandidate`: each failure path throws. -/
def analyzeCandidateBody : GeminiOutcome → Except String AIResponseRaw
  | .missingApiKey => .error "API Key not found"
  | .noResponseText => .error "No response from AI"
  | .parseFailure => .error "JSON parse error"
  | .parsed data => .ok data

/-- The placeholder record built in the `catch` branch of `analyzeCandidate`
(gemini.ts lines 115–132): all five ratings 0 and explanatory text. -/
def fallbackRecord : AIResponseRaw where
  candidateName := "Unknown Candidate (Parse Error)"
  skillsFound := []
  skillsMissing := []
  qualifications := []
  achievements := []
  experienceSummary := "Failed to process this file."
  strengths := []
  weaknesses := ["File could not be analyzed by AI"]
  ratings := ⟨0, 0, 0, 0, 0⟩
  reasoning := "An error occurred during AI processing. Please check the file format or try again."

/-- `analyzeCandidate`: run the body; any thrown error is caught and replaced
by the placeholder record.  The function is total — it never propagates an
exception. -/
def analyzeCandidate (outcome : GeminiOutcome) : AIResponseRaw :=
  match analyzeCandidateBody outcome with
  | .ok data => data
  | .error _ => fallbackRecord

/-! ## The batch loop (`startAnalysis` in the App component)

`startAnalysis` resets the results to `[]`, then iterates over the CV files
in upload order.  Per file the `try` block reads the file, calls
`analyzeCandidate`, scores the raw record with the current weights, appends
it to the results and marks the file `completed`; the `catch` block marks the
file `error` with the message "Failed to analyze" and the loop continues.
Whether a file's processing throws is abstracted into an `Option` outcome. -/

/-- Status enum of `ProcessingFile` (types.ts); `error` carries the message. -/
inductive FileStatus where
  | pending
  | processing
  | completed
  | error (msg : String)
deriving DecidableEq

/-- One uploaded CV file together with the outcome of processing it:
`some raw` when the read + analysis succeed with the raw record `raw`,
`none` when processing throws. -/
structure BatchFile where
  id : String
  outcome : Option AIResponseRaw
deriving DecidableEq

/-- Lines 199–204 of the App component: wrap the raw record with the file's id
and placeholder score/label, then run the initial score calculation. -/
def mkCandidate (fileId : String) (raw : AIResponseRaw) (w : ScoringWeights) :
    CandidateAnalysis :=
  calculateFinalScore
    { toAIResponseRaw := raw, id := fileId, finalScore := 0, fitLabel := .Low } w

/-- The `for` loop of `startAnalysis`, returning the final per-file statuses
(positionally) and the accumulated results in completion order. -/
def runBatch (w : ScoringWeights) : List BatchFile → List FileStatus × List CandidateAnalysis
  | [] => ([], [])
  | f :: rest =>
    match f.outcome with
    | some raw =>
      let result := mkCandidate f.id raw w
      let (sts, res) := runBatch w rest
      (FileStatus.completed :: sts, result :: res)
    | none =>
      let (sts, res) := runBatch w rest
      (FileStatus.error "Failed to analyze" :: sts, res)

/-- One iteration's effect on the results list: on success the scored
candidate is appended (`setResults(prev => [...prev, fullResult])`), on
failure the results are untouched. -/
def analysisStep (w : ScoringWeights) (results : List CandidateAnalysis)
    (f : BatchFile) : List CandidateAnalysis :=
  match f.outcome with
  | some raw => results ++ [mkCandidate f.id raw w]
  | none => results

/-- `setResults([])` at the top of `startAnalysis` (App component line 176):
whatever results were held before the run, the store starts empty. -/
def startAnalysisInit (_prevResults : List CandidateAnalysis) :
    List CandidateAnalysis := []

/-- The Result Store contents after the first `k` files of a run of
`startAnalysis` that began with `prevResults` in the store. -/
def resultsDuringRun (w : ScoringWeights) (prevResults : List CandidateAnalysis)
    (files : List BatchFile) (k : Nat) : List CandidateAnalysis :=
  (files.take k).foldl (analysisStep w) (startAnalysisInit prevResults)

/-! ## CSV export (`generateCSV` in services/fileUtils.ts)

`generateCSV` sorts the array it is handed **in place** with
`candidates.sort((a, b) => b.finalScore - a.finalScore)` (descending score,
stable), then maps each candidate to a row whose first column is the 1-based
position.  Name, Strengths and Weaknesses are wrapped in double quotes with
inner quotes doubled (`.replace(/"/g, s)` with the two-quote string).  The
in-place mutation is modelled by returning the array's final state alongside
the produced text. -/

/-- Double every quote character (the global regex replace in fileUtils.ts). -/
def escQuotes : List Char → List Char
  | [] => []
  | ch :: rest =>
    if ch = Char.ofNat 34 then Char.ofNat 34 :: Char.ofNat 34 :: escQuotes rest
    else ch :: escQuotes rest

/-- Wrap a string in double quotes, doubling the quotes inside it. -/
def csvQuote (s : String) : String :=
  ⟨Char.ofNat 34 :: (escQuotes s.data ++ [Char.ofNat 34])⟩

/-- `xs.join(sep)` on an array of strings. -/
def joinSemi (xs : List String) : String := String.intercalate "; " xs

/-- `Number.prototype.toFixed(1)` for a non-negative number: round to one
decimal digit and print the integer part, a dot, and the single digit. -/
def toFixed1 (q : ℚ) : String :=
  let n : ℤ := ⌊q * 10 + 1 / 2⌋
  toString (n / 10) ++ "." ++ toString (n % 10)

/-- `Number.prototype.toString()` for the integer-valued ratings. -/
def numStr (q : ℚ) : String :=
  if q.den = 1 then toString q.num else toString q.num ++ "/" ++ toString q.den

/-- The rendering of a fit label used in the CSV row. -/
def FitLabel.str : FitLabel → String
  | .High => "High"
  | .Medium => "Medium"
  | .Low => "Low"

/-- The descending-score comparison used by `sort((a, b) => b.finalScore - a.finalScore)`:
`a` precedes `b` when `b`'s score is at most `a`'s. -/
def scoreGe (a b : CandidateAnalysis) : Prop := b.finalScore ≤ a.finalScore

instance : DecidableRel scoreGe := fun a b =>
  inferInstanceAs (Decidable (b.finalScore ≤ a.finalScore))

instance : IsTotal CandidateAnalysis scoreGe :=
  ⟨fun a b => le_total b.finalScore a.finalScore⟩

instance : IsTrans CandidateAnalysis scoreGe :=
  ⟨fun _ _ _ hab hbc => le_trans hbc hab⟩

/-- The in-place stable sort by descending `finalScore`. -/
def sortByScoreDesc (candidates : List CandidateAnalysis) : List CandidateAnalysis :=
  List.insertionSort scoreGe candidates

/-- The header cells of the exported report (fileUtils.ts lines 18–28). -/
def csvHeaders : List String :=
  ["Rank", "Name", "Total Score", "Fit Label", "Skills Match (0-100)",
   "Experience (0-100)", "Qualifications (0-100)", "Strengths", "Weaknesses"]

/-- One data row: rank, quoted name, score to one decimal, label, the three
rating sub-scores, quoted strengths and weaknesses (fileUtils.ts lines 32–42). -/
def csvRow (rank : Nat) (c : CandidateAnalysis) : List String :=
  [toString rank, csvQuote c.candidateName, toFixed1 c.finalScore, c.fitLabel.str,
   numStr c.ratings.skillsMatch, numStr c.ratings.experienceRelevance,
   numStr c.ratings.qualifications,
   csvQuote (joinSemi c.strengths), csvQuote (joinSemi c.weaknesses)]

/-- The list of data rows of the report, in output order. -/
def csvDataRows (candidates : List CandidateAnalysis) : List (List String) :=
  (sortByScoreDesc candidates).enum.map (fun ic => csvRow (ic.1 + 1) ic.2)

/-- `generateCSV`: the produced text, paired with the state the input array is
left in by the in-place `sort`. -/
def generateCSV (candidates : List CandidateAnalysis) :
    String × List CandidateAnalysis :=
  let sorted := sortByScoreDesc candidates
  let rows := (csvDataRows candidates).map (String.intercalate ",")
  (String.intercalate "\n" (String.intercalate "," csvHeaders :: rows), sorted)

/-- Read the body of a double-quoted CSV field: characters up to an unescaped
closing quote, a doubled quote standing for one literal quote.  Returns the
field content and the rest of the input. -/
def readFieldBody : List Char → Option (List Char × List Char)
  | [] => none
  | c :: rest =>
    if c = Char.ofNat 34 then
      match rest with
      | c2 :: rest2 =>
        if c2 = Char.ofNat 34 then
          (readFieldBody rest2).map (fun p => (Char.ofNat 34 :: p.1, p.2))
        else some ([], rest)
      | [] => some ([], [])
    else
      (readFieldBody rest).map (fun p => (c :: p.1, p.2))

/-- Read one double-quoted CSV field from the front of the input. -/
def readQuotedField (input : List Char) : Option (List Char × List Char) :=
  match input with
  | c :: rest => if c = Char.ofNat 34 then readFieldBody rest else none
  | [] => none

/-! ## Local persistence (App component lines 50–59)

`localStorage` is modelled as the two keyed blobs the App ever writes:
`cv_ranker_weights` and `cv_ranker_results`.  The two save effects are the
bodies of the two `useEffect` hooks: the weights blob is written
unconditionally on every weights change; the results blob is written only
when `results.length > 0`. -/

/-- The two keyed blobs of durable local storage. -/
structure LocalStore where
  weightsBlob : Option String
  resultsBlob : Option String
deriving DecidableEq

/-- A simple injective rendering of `JSON.stringify` on a weights value. -/
def serializeWeights (w : ScoringWeights) : String :=
  "[" ++ numStr w.skillsMatch ++ "," ++ numStr w.experienceRelevance ++ "," ++
  numStr w.qualifications ++ "," ++ numStr w.seniority ++ "," ++
  numStr w.clarity ++ "]"

/-- A simple rendering of `JSON.stringify` on one candidate. -/
def serializeCandidate (c : CandidateAnalysis) : String :=
  c.id ++ "|" ++ c.candidateName ++ "|" ++ numStr c.finalScore ++ "|" ++
  c.fitLabel.str

/-- A simple rendering of `JSON.stringify` on the result list. -/
def serializeResults (results : List CandidateAnalysis) : String :=
  "[" ++ String.intercalate "," (results.map serializeCandidate) ++ "]"

/-- The weights `useEffect` (App line 52): write the weights blob on every
weights change. -/
def saveWeightsEffect (w : ScoringWeights) (ls : LocalStore) : LocalStore :=
  { ls with weightsBlob := some (serializeWeights w) }

/-- The results `useEffect` (App lines 55–59): write the results blob only
when the new list is non-empty. -/
def saveResultsEffect (results : List CandidateAnalysis) (ls : LocalStore) :
    LocalStore :=
  if results.length > 0 then { ls with resultsBlob := some (serializeResults results) }
  else ls

/-! ## Abbreviations used by the statements, and concrete demonstration data -/

/-- The final status the loop leaves a file in, as a function of its outcome. -/
def statusOfOutcome : Option AIResponseRaw → FileStatus
  | some _ => .completed
  | none => .error "Failed to analyze"

/-- The scored candidate a file contributes to the Result Store, if any. -/
def scoredOf (w : ScoringWeights) (f : BatchFile) : Option CandidateAnalysis :=
  f.outcome.map (fun raw => mkCandidate f.id raw w)

/-- A concrete in-range ratings block. -/
def demoRatings : Ratings := ⟨90, 95, 88, 92, 91⟩

/-- The default weight configuration of the App (35/30/15/10/10). -/
def demoWeights : ScoringWeights := ⟨35, 30, 15, 10, 10⟩

/-- The all-zero weight configuration. -/
def zeroWeights : ScoringWeights := ⟨0, 0, 0, 0, 0⟩

/-- A concrete candidate with score 91.2 and a comma inside the name. -/
def demoCandA : CandidateAnalysis where
  candidateName := "Doe, Jane"
  skillsFound := ["React"]
  skillsMissing := []
  qualifications := ["MBA"]
  achievements := []
  experienceSummary := "10 years"
  strengths := ["Leadership"]
  weaknesses := ["None noted"]
  ratings := demoRatings
  reasoning := "strong"
  id := "idA"
  finalScore := 456 / 5
  fitLabel := .High

/-- A concrete candidate with score 54.0. -/
def demoCandB : CandidateAnalysis where
  candidateName := "Smith, John"
  skillsFound := []
  skillsMissing := ["SQL"]
  qualifications := []
  achievements := []
  experienceSummary := "2 years"
  strengths := []
  weaknesses := ["Junior"]
  ratings := ⟨54, 54, 54, 54, 54⟩
  reasoning := "average"
  id := "idB"
  finalScore := 54
  fitLabel := .Medium

/-- A concrete raw record, as the collaborator would return it. -/
def demoRaw : AIResponseRaw where
  candidateName := "Ada"
  skillsFound := ["Math"]
  skillsMissing := []
  qualifications := []
  achievements := []
  experienceSummary := "long"
  strengths := ["Rigor"]
  weaknesses := []
  ratings := demoRatings
  reasoning := "good"

/-! ## Helper lemmas -/

/-- The sort used by the CSV export is a permutation of its input. -/
lemma sortByScoreDesc_perm (cs : List CandidateAnalysis) :
    (sortByScoreDesc cs).Perm cs :=
  List.perm_insertionSort scoreGe cs

/-- The sort used by the CSV export orders scores descendingly. -/
lemma sortByScoreDesc_sorted (cs : List CandidateAnalysis) :
    (sortByScoreDesc cs).Pairwise scoreGe :=
  List.sorted_insertionSort scoreGe cs

/-- Reading a field body undoes quote doubling, returning the untouched
remainder, provided the remainder does not begin with a quote. -/
lemma readFieldBody_escQuotes_spec (s : List Char) :
    ∀ rest : List Char, rest.head? ≠ some (Char.ofNat 34) →
      readFieldBody (escQuotes s ++ Char.ofNat 34 :: rest) = some (s, rest) := by
  induction s with
  | nil =>
    intro rest h
    cases rest with
    | nil => simp [readFieldBody, escQuotes]
    | cons c2 rest2 =>
      have hc2 : c2 ≠ Char.ofNat 34 := by
        intro he; exact h (by simp [he])
      simp only [escQuotes, List.nil_append]
      rw [readFieldBody.eq_def]
      simp [hc2]
  | cons c s' ih =>
    intro rest h
    by_cases hc : c = Char.ofNat 34
    · subst hc
      simp only [escQuotes, if_pos rfl, List.cons_append]
      rw [readFieldBody.eq_def]
      simp [ih rest h]
    · simp only [escQuotes, if_neg hc, List.cons_append]
      rw [readFieldBody.eq_def]
      simp [hc, ih rest h]

/-- Round trip: a quote-escaped field parses back to the original string. -/
lemma readQuotedField_csvQuote_spec (s : String) (rest : List Char)
    (h : rest.head? ≠ some (Char.ofNat 34)) :
    readQuotedField ((csvQuote s).data ++ rest) = some (s.data, rest) := by
  have hdata : (csvQuote s).data =
      Char.ofNat 34 :: (escQuotes s.data ++ [Char.ofNat 34]) := rfl
  rw [hdata]
  simp only [List.cons_append, List.append_assoc, List.singleton_append]
  simp [readQuotedField, readFieldBody_escQuotes_spec s.data rest h]

/-- The i-th data row of the report is the row of the i-th sorted candidate
with rank i + 1. -/
lemma csvDataRows_getElem (cs : List CandidateAnalysis) (i : Nat)
    (c : CandidateAnalysis) (h : (sortByScoreDesc cs)[i]? = some c) :
    (csvDataRows cs)[i]? = some (csvRow (i + 1) c) := by
  simp [csvDataRows, List.getElem?_map, List.getElem?_enum, h]

/-- Folding the per-file step appends exactly the scored successes in order. -/
lemma foldl_analysisStep_eq (w : ScoringWeights) (files : List BatchFile)
    (acc : List CandidateAnalysis) :
    files.foldl (analysisStep w) acc = acc ++ files.filterMap (scoredOf w) := by
  induction files generalizing acc with
  | nil => simp
  | cons f rest ih =>
    cases hout : f.outcome <;> simp [analysisStep, hout, scoredOf, ih]

/-- The concrete two-candidate sort: 91.2 ranks above 54.0. -/
lemma sortByScoreDesc_demo_pair :
    sortByScoreDesc [demoCandB, demoCandA] = [demoCandA, demoCandB] := by
  have hnot : ¬ scoreGe demoCandB demoCandA := by
    simp [scoreGe, demoCandA, demoCandB]
    norm_num
  simp [sortByScoreDesc, List.insertionSort, List.orderedInsert, hnot]

/-! ## Claims -/

/-- C1: for a candidate whose five ratings are in [0,100] and a weight
configuration of five non-negative numbers with positive sum,
`calculateFinalScore` sets `finalScore` to Σ(rating_i × weight_i) / Σ(weight_i),
that value lies in [0,100], and every field except the derived
`finalScore`/`fitLabel` pair is passed through unchanged. -/
theorem calculateFinalScore_weighted_average (c : CandidateAnalysis)
    (w : ScoringWeights) (hw : WeightsNonneg w) (hpos : 0 < w.total)
    (hr : RatingsInRange c.ratings) :
    (calculateFinalScore c w).finalScore = weightedSum c.ratings w / w.total ∧
    0 ≤ (calculateFinalScore c w).finalScore ∧
    (calculateFinalScore c w).finalScore ≤ 100 ∧
    (calculateFinalScore c w).toAIResponseRaw = c.toAIResponseRaw ∧
    (calculateFinalScore c w).id = c.id := by
  have hne : w.total ≠ 0 := ne_of_gt hpos
  obtain ⟨hw1, hw2, hw3, hw4, hw5⟩ := hw
  obtain ⟨⟨ha1, hb1⟩, ⟨ha2, hb2⟩, ⟨ha3, hb3⟩, ⟨ha4, hb4⟩, ⟨ha5, hb5⟩⟩ := hr
  have heq : (calculateFinalScore c w).finalScore =
      weightedSum c.ratings w / w.total := by
    simp [calculateFinalScore, hne, weightedSum]
  refine ⟨heq, ?_, ?_, ?_, ?_⟩
  · rw [heq]
    apply div_nonneg _ hpos.le
    unfold weightedSum
    nlinarith [mul_nonneg ha1 hw1, mul_nonneg ha2 hw2, mul_nonneg ha3 hw3,
      mul_nonneg ha4 hw4, mul_nonneg ha5 hw5]
  · rw [heq, div_le_iff₀ hpos]
    unfold weightedSum ScoringWeights.total
    nlinarith [mul_le_mul_of_nonneg_right hb1 hw1, mul_le_mul_of_nonneg_right hb2 hw2,
      mul_le_mul_of_nonneg_right hb3 hw3, mul_le_mul_of_nonneg_right hb4 hw4,
      mul_le_mul_of_nonneg_right hb5 hw5]
  · simp [calculateFinalScore, hne]
  · simp [calculateFinalScore, hne]

/-- Witness for C1 at the default weights and a concrete in-range candidate. -/
theorem calculateFinalScore_weighted_average_witness :
    WeightsNonneg demoWeights ∧ 0 < demoWeights.total ∧
    RatingsInRange demoCandA.ratings ∧
    ((calculateFinalScore demoCandA demoWeights).finalScore =
        weightedSum demoCandA.ratings demoWeights / demoWeights.total ∧
      0 ≤ (calculateFinalScore demoCandA demoWeights).finalScore ∧
      (calculateFinalScore demoCandA demoWeights).finalScore ≤ 100 ∧
      (calculateFinalScore demoCandA demoWeights).toAIResponseRaw =
        demoCandA.toAIResponseRaw ∧
      (calculateFinalScore demoCandA demoWeights).id = demoCandA.id) := by
  have h1 : WeightsNonneg demoWeights := by norm_num [WeightsNonneg, demoWeights]
  have h2 : 0 < demoWeights.total := by norm_num [ScoringWeights.total, demoWeights]
  have h3 : RatingsInRange demoCandA.ratings := by
    norm_num [RatingsInRange, demoCandA, demoRatings]
  exact ⟨h1, h2, h3, calculateFinalScore_weighted_average demoCandA demoWeights h1 h2 h3⟩

/-- C2: when the five weights sum to zero, `calculateFinalScore` returns the
candidate unchanged (no division by zero), and recomputing every stored score
with such weights leaves the stored list unchanged. -/
theorem calculateFinalScore_zero_weight_sum_noop (c : CandidateAnalysis)
    (w : ScoringWeights) (h : w.total = 0) :
    calculateFinalScore c w = c ∧
    ∀ results : List CandidateAnalysis,
      results.map (fun r => calculateFinalScore r w) = results := by
  have hid : ∀ r : CandidateAnalysis, calculateFinalScore r w = r := by
    intro r; simp [calculateFinalScore, h]
  exact ⟨hid c, fun results => by simp [hid]⟩

/-- Witness for C2 at the all-zero weight configuration. -/
theorem calculateFinalScore_zero_weight_sum_noop_witness :
    zeroWeights.total = 0 ∧
    (calculateFinalScore demoCandA zeroWeights = demoCandA ∧
      ∀ results : List CandidateAnalysis,
        results.map (fun r => calculateFinalScore r zeroWeights) = results) := by
  have h : zeroWeights.total = 0 := by norm_num [ScoringWeights.total, zeroWeights]
  exact ⟨h, calculateFinalScore_zero_weight_sum_noop demoCandA zeroWeights h⟩

/-- C3: with a positive weight sum, `fitLabel` is exactly the threshold
classification of the assigned `finalScore` (≥80 High, ≥50 Medium, else Low);
all-zero ratings give Low and all-100 ratings give High. -/
theorem calculateFinalScore_fitLabel_threshold (c : CandidateAnalysis)
    (w : ScoringWeights) (hpos : 0 < w.total) :
    (calculateFinalScore c w).fitLabel =
      labelOfScore (calculateFinalScore c w).finalScore ∧
    (c.ratings = ⟨0, 0, 0, 0, 0⟩ → (calculateFinalScore c w).fitLabel = .Low) ∧
    (c.ratings = ⟨100, 100, 100, 100, 100⟩ →
      (calculateFinalScore c w).fitLabel = .High) := by
  have hne : w.total ≠ 0 := ne_of_gt hpos
  refine ⟨?_, ?_, ?_⟩
  · simp [calculateFinalScore, hne, labelOfScore]
  · intro h0
    simp [calculateFinalScore, hne, h0]
    norm_num
  · intro h100
    have hs : 100 * w.skillsMatch + 100 * w.experienceRelevance +
        100 * w.qualifications + 100 * w.seniority + 100 * w.clarity =
        100 * w.total := by
      unfold ScoringWeights.total; ring
    have hscore : (100 * w.skillsMatch + 100 * w.experienceRelevance +
        100 * w.qualifications + 100 * w.seniority + 100 * w.clarity) / w.total =
        100 := by
      rw [hs, mul_div_assoc, div_self hne, mul_one]
    simp [calculateFinalScore, hne, h100, hscore]
    norm_num

/-- Witness for C3 at the default weights and a concrete candidate. -/
theorem calculateFinalScore_fitLabel_threshold_witness :
    0 < demoWeights.total ∧
    ((calculateFinalScore demoCandA demoWeights).fitLabel =
        labelOfScore (calculateFinalScore demoCandA demoWeights).finalScore ∧
      (demoCandA.ratings = ⟨0, 0, 0, 0, 0⟩ →
        (calculateFinalScore demoCandA demoWeights).fitLabel = .Low) ∧
      (demoCandA.ratings = ⟨100, 100, 100, 100, 100⟩ →
        (calculateFinalScore demoCandA demoWeights).fitLabel = .High)) := by
  have h2 : 0 < demoWeights.total := by norm_num [ScoringWeights.total, demoWeights]
  exact ⟨h2, calculateFinalScore_fitLabel_threshold demoCandA demoWeights h2⟩

/-- C4: in a batch run, a failed file ends in status `error` with the short
message "Failed to analyze" and the loop continues; every success ends
`completed` and contributes its scored candidate in upload order.  For three
files where exactly the second fails, the end state is
[completed, error, completed] with exactly the two successes stored in upload
order. -/
theorem runBatch_partial_failure_policy (w : ScoringWeights)
    (files : List BatchFile) :
    (runBatch w files).1 = files.map (fun f => statusOfOutcome f.outcome) ∧
    (runBatch w files).2 = files.filterMap (scoredOf w) ∧
    ∀ (idA idB idC : String) (a c : AIResponseRaw),
      runBatch w [⟨idA, some a⟩, ⟨idB, none⟩, ⟨idC, some c⟩] =
        ([.completed, .error "Failed to analyze", .completed],
         [mkCandidate idA a w, mkCandidate idC c w]) := by
  have hchar : ∀ fs : List BatchFile,
      (runBatch w fs).1 = fs.map (fun f => statusOfOutcome f.outcome) ∧
      (runBatch w fs).2 = fs.filterMap (scoredOf w) := by
    intro fs
    induction fs with
    | nil => exact ⟨rfl, rfl⟩
    | cons f rest ih =>
      obtain ⟨ih1, ih2⟩ := ih
      cases hout : f.outcome <;>
        simp [runBatch, hout, statusOfOutcome, scoredOf, ih1, ih2]
  exact ⟨(hchar files).1, (hchar files).2,
    fun idA idB idC a c => by simp [runBatch]⟩

/-- C5: `analyzeCandidate` is total over every collaborator outcome.  On a
parsed response it returns the data; on each failure (missing API key, no
response text, parse failure) the thrown error is caught and the well-formed
placeholder with all five ratings 0 and explanatory notes is returned — no
exception propagates. -/
theorem analyzeCandidate_never_throws (outcome : GeminiOutcome) :
    (∃ data, outcome = .parsed data ∧ analyzeCandidate outcome = data) ∨
    ((∃ msg, analyzeCandidateBody outcome = Except.error msg) ∧
      analyzeCandidate outcome = fallbackRecord ∧
      (analyzeCandidate outcome).ratings = ⟨0, 0, 0, 0, 0⟩ ∧
      (analyzeCandidate outcome).experienceSummary = "Failed to process this file." ∧
      (analyzeCandidate outcome).weaknesses = ["File could not be analyzed by AI"] ∧
      (analyzeCandidate outcome).reasoning =
        "An error occurred during AI processing. Please check the file format or try again.") := by
  cases outcome with
  | parsed data => exact Or.inl ⟨data, rfl, rfl⟩
  | missingApiKey => exact Or.inr ⟨⟨"API Key not found", rfl⟩, rfl, rfl, rfl, rfl, rfl⟩
  | noResponseText => exact Or.inr ⟨⟨"No response from AI", rfl⟩, rfl, rfl, rfl, rfl, rfl⟩
  | parseFailure => exact Or.inr ⟨⟨"JSON parse error", rfl⟩, rfl, rfl, rfl, rfl, rfl⟩

/-- C6: with non-negative weights of positive sum and ratings in [0,100], the
final score is monotonically non-decreasing in any single rating, the other
four ratings and the weights held fixed. -/
theorem finalScore_monotone_in_single_rating (c : CandidateAnalysis)
    (w : ScoringWeights) (axis : RatingAxis) (hw : WeightsNonneg w)
    (hpos : 0 < w.total) (_hr : RatingsInRange c.ratings) (v v' : ℚ)
    (_hv0 : 0 ≤ v) (_hv100 : v' ≤ 100) (hle : v ≤ v') :
    (calculateFinalScore (c.withRating axis v) w).finalScore ≤
    (calculateFinalScore (c.withRating axis v') w).finalScore := by
  have hne : w.total ≠ 0 := ne_of_gt hpos
  obtain ⟨hw1, hw2, hw3, hw4, hw5⟩ := hw
  cases axis <;>
    simp [calculateFinalScore, hne, CandidateAnalysis.withRating, Ratings.setAxis] <;>
    rw [div_le_div_iff_of_pos_right hpos] <;>
    nlinarith [mul_le_mul_of_nonneg_right hle hw1, mul_le_mul_of_nonneg_right hle hw2,
      mul_le_mul_of_nonneg_right hle hw3, mul_le_mul_of_nonneg_right hle hw4,
      mul_le_mul_of_nonneg_right hle hw5]

/-- Witness for C6: raising the skills-match rating from 50 to 60 under the
default weights does not lower the final score. -/
theorem finalScore_monotone_in_single_rating_witness :
    WeightsNonneg demoWeights ∧ 0 < demoWeights.total ∧
    RatingsInRange demoCandA.ratings ∧ (0 : ℚ) ≤ 50 ∧ (60 : ℚ) ≤ 100 ∧
    (50 : ℚ) ≤ 60 ∧
    (calculateFinalScore (demoCandA.withRating .skillsMatch 50) demoWeights).finalScore ≤
      (calculateFinalScore (demoCandA.withRating .skillsMatch 60) demoWeights).finalScore := by
  have h1 : WeightsNonneg demoWeights := by norm_num [WeightsNonneg, demoWeights]
  have h2 : 0 < demoWeights.total := by norm_num [ScoringWeights.total, demoWeights]
  have h3 : RatingsInRange demoCandA.ratings := by
    norm_num [RatingsInRange, demoCandA, demoRatings]
  refine ⟨h1, h2, h3, by norm_num, by norm_num, by norm_num, ?_⟩
  exact finalScore_monotone_in_single_rating demoCandA demoWeights .skillsMatch
    h1 h2 h3 50 60 (by norm_num) (by norm_num) (by norm_num)

/-- C7: the generated report is the header line (Rank, Name, Total Score,
Fit Label, the three rating sub-scores, Strengths, Weaknesses) followed by the
data rows; the data rows are the input sorted by descending `finalScore`, the
Rank cell of the i-th row is its 1-based position i + 1, quote-escaped fields
parse back to the original text (a name containing commas stays one field),
and two candidates with scores 91.2 and 54.0 are ranked 1 and 2. -/
theorem generateCSV_report_spec (cs : List CandidateAnalysis) :
    (generateCSV cs).1 =
      String.intercalate "\n"
        (String.intercalate "," csvHeaders ::
          (csvDataRows cs).map (String.intercalate ",")) ∧
    (sortByScoreDesc cs).Perm cs ∧
    (sortByScoreDesc cs).Pairwise scoreGe ∧
    (∀ i c, (sortByScoreDesc cs)[i]? = some c →
      (csvDataRows cs)[i]? = some (csvRow (i + 1) c)) ∧
    (∀ name rest, rest.head? ≠ some (Char.ofNat 34) →
      readQuotedField ((csvQuote name).data ++ rest) = some (name.data, rest)) ∧
    (∀ cA cB : CandidateAnalysis, cA.finalScore = 456 / 5 → cB.finalScore = 54 →
      csvDataRows [cB, cA] = [csvRow 1 cA, csvRow 2 cB]) := by
  refine ⟨rfl, sortByScoreDesc_perm cs, sortByScoreDesc_sorted cs,
    fun i c h => csvDataRows_getElem cs i c h,
    fun name rest h => readQuotedField_csvQuote_spec name rest h,
    fun cA cB hA hB => ?_⟩
  have hnot : ¬ scoreGe cB cA := by
    simp [scoreGe, hA, hB]; norm_num
  simp [csvDataRows, sortByScoreDesc, List.insertionSort, List.orderedInsert, hnot]
  rfl

/-- Witness for C7: the concrete 91.2 / 54.0 pair is ranked 1 then 2, and the
quote-escaped comma-containing name parses back whole. -/
theorem generateCSV_report_spec_witness :
    csvDataRows [demoCandB, demoCandA] = [csvRow 1 demoCandA, csvRow 2 demoCandB] ∧
    readQuotedField ((csvQuote "Doe, Jane").data ++ [',']) =
      some (("Doe, Jane").data, [',']) := by
  refine ⟨?_, ?_⟩
  · exact (generateCSV_report_spec [demoCandB, demoCandA]).2.2.2.2.2
      demoCandA demoCandB rfl rfl
  · exact (generateCSV_report_spec []).2.2.2.2.1 "Doe, Jane" [','] (by decide)

/-- C8 counterexample: the claim fails on the code.  After the stored results
change from a one-element list to the empty list, the results `useEffect` does
not write: the durable blob still holds the previous serialization, not the
serialization of the new (empty) in-memory value. -/
theorem saveResultsEffect_empty_change_counterexample :
    saveResultsEffect [] (saveResultsEffect [demoCandB] ⟨none, none⟩) =
      saveResultsEffect [demoCandB] ⟨none, none⟩ ∧
    (saveResultsEffect [] (saveResultsEffect [demoCandB] ⟨none, none⟩)).resultsBlob ≠
      some (serializeResults ([] : List CandidateAnalysis)) := by
  constructor
  · rfl
  · have h54 : numStr demoCandB.finalScore = "54" := by
      have h0 : demoCandB.finalScore = (54 : ℚ) := rfl
      rw [h0]; simp [numStr, Rat.den_ofNat, Rat.num_ofNat]; decide
    simp [saveResultsEffect, serializeResults, serializeCandidate, h54,
      demoCandB, FitLabel.str]
    decide

/-- C8 (amended): every weights change rewrites the weights blob to the new
value without touching the results blob; a results change rewrites the results
blob to the new value when the new list is non-empty, and leaves the store
unchanged when the new list is empty; neither effect writes anything else. -/
theorem persistence_effects_amended (w : ScoringWeights) (ls : LocalStore) :
    (saveWeightsEffect w ls).weightsBlob = some (serializeWeights w) ∧
    (saveWeightsEffect w ls).resultsBlob = ls.resultsBlob ∧
    (∀ results : List CandidateAnalysis, results ≠ [] →
      saveResultsEffect results ls =
        { ls with resultsBlob := some (serializeResults results) }) ∧
    saveResultsEffect [] ls = ls ∧
    (∀ results, (saveResultsEffect results ls).weightsBlob = ls.weightsBlob) := by
  refine ⟨rfl, rfl, ?_, rfl, ?_⟩
  · intro results h
    have hlen : results.length > 0 := List.length_pos.mpr h
    simp [saveResultsEffect, hlen]
  · intro results
    unfold saveResultsEffect
    split <;> rfl

/-- Witness for C8 (amended): a non-empty results change writes its
serialization into the results blob. -/
theorem persistence_effects_amended_witness :
    ([demoCandB] : List CandidateAnalysis) ≠ [] ∧
    saveResultsEffect [demoCandB] ⟨none, none⟩ =
      { (⟨none, none⟩ : LocalStore) with
        resultsBlob := some (serializeResults [demoCandB]) } := by
  have h : ([demoCandB] : List CandidateAnalysis) ≠ [] := by simp
  exact ⟨h, (persistence_effects_amended demoWeights ⟨none, none⟩).2.2.1 [demoCandB] h⟩

/-- C9: a `startAnalysis` run first resets the Result Store to empty, so after
any number `k` of processed files the store holds exactly the scored successes
of the current run's first `k` files, in upload order — independent of
whatever results the store held before the run. -/
theorem startAnalysis_resets_then_accumulates (w : ScoringWeights)
    (prev : List CandidateAnalysis) (files : List BatchFile) (k : Nat) :
    resultsDuringRun w prev files k = (files.take k).filterMap (scoredOf w) ∧
    (∀ prev', resultsDuringRun w prev files k = resultsDuringRun w prev' files k) ∧
    resultsDuringRun w prev files files.length = files.filterMap (scoredOf w) := by
  have hk : ∀ n : Nat, resultsDuringRun w prev files n =
      (files.take n).filterMap (scoredOf w) := by
    intro n
    unfold resultsDuringRun startAnalysisInit
    rw [foldl_analysisStep_eq]
    simp
  exact ⟨hk k, fun _ => rfl, by rw [hk files.length, List.take_length]⟩

/-- C10: `generateCSV` sorts the array it is handed in place: after the call
the caller's list is exactly the descending-score permutation of what it
passed, each record itself unmodified (every element of the final state is an
element of the original list). -/
theorem generateCSV_sorts_input_in_place (cs : List CandidateAnalysis) :
    (generateCSV cs).2 = sortByScoreDesc cs ∧
    (generateCSV cs).2.Perm cs ∧
    (generateCSV cs).2.Pairwise scoreGe ∧
    (∀ c, c ∈ (generateCSV cs).2 → c ∈ cs) := by
  refine ⟨rfl, sortByScoreDesc_perm cs, sortByScoreDesc_sorted cs, fun c hc => ?_⟩
  exact (sortByScoreDesc_perm cs).mem_iff.mp hc

/-- Witness for C10: the record with score 91.2 found in the post-call array
state is one of the originally passed records. -/
theorem generateCSV_sorts_input_in_place_witness :
    demoCandA ∈ ([demoCandB, demoCandA] : List CandidateAnalysis) := by
  have hmem : demoCandA ∈ (generateCSV [demoCandB, demoCandA]).2 := by
    show demoCandA ∈ sortByScoreDesc [demoCandB, demoCandA]
    rw [sortByScoreDesc_demo_pair]
    simp
  exact (generateCSV_sorts_input_in_place [demoCandB, demoCandA]).2.2.2 demoCandA hmem

end AimProject
